import Mathlib

/-!
Verification development for the maubot `spotprice` plugin
(`src/spotprice.py`).  The Python source is shallowly embedded below:

* wall-clock instants in the CET reference zone are pairs of a day index
  (days since 1970-01-01) and microseconds since local midnight, matching
  the microsecond precision of Python `datetime`;
* `datetime` values parsed from the API (`deliveryStart`) are pairs of an
  absolute instant in minutes since the epoch and a fixed UTC-offset in
  minutes (the formatter only reads `%Y-%m-%d`, `%H:%M` and `weekday()`,
  all at minute granularity);
* floats are modelled as rationals;
* exceptions become `Except` values; the three raise sites of
  `fetch_prices` are the spec's `HttpError` / `NoDataError` /
  `MalformedPriceError` taxonomy;
* the scheduler (`sched.run_later`) and outbound messages are modelled by
  returning the list of scheduled tasks and messages an invocation
  produces.
-/

namespace Spotprice

/-- 12:45:00.000000 CET expressed in microseconds since local midnight;
the announce time hard-coded in `next_announce_time`
(`now.replace(hour=12, minute=45, second=0, microsecond=0)`). -/
def announceMicro : Nat := (12 * 3600 + 45 * 60) * 1000000

/-- Microseconds in one day. -/
def dayMicro : Nat := 86400 * 1000000

/-- A wall-clock instant in the CET reference zone: `day` counts days since
1970-01-01 and `micro` counts microseconds since local midnight
(`micro < dayMicro` for instants produced by the clock). -/
structure CetNow where
  day : Nat
  micro : Nat
  deriving Repr, DecidableEq

/-- Embeds the `next_announce_time` property: take `now` in CET, replace the
time-of-day by 12:45:00.000000, and add one day when the replaced instant is
strictly before `now` (`if announce_time < now`). -/
def next_announce_time (now : CetNow) : CetNow :=
  let announce : CetNow := { day := now.day, micro := announceMicro }
  if announce.micro < now.micro then { announce with day := announce.day + 1 }
  else announce

/-- Zero-pad a natural number to two digits, as Python `%H` / `%M` / `%m` /
`%d` do. -/
def pad2 (n : Nat) : String :=
  if n < 10 then "0" ++ toString n else toString n

/-- Zero-pad a year to four digits (`%Y`). -/
def pad4 (n : Nat) : String :=
  if n < 10 then "000" ++ toString n
  else if n < 100 then "00" ++ toString n
  else if n < 1000 then "0" ++ toString n
  else toString n

/-- Gregorian calendar date (year, month, day) of a day index counted from
1970-01-01, for day indices on or after the epoch. -/
def civilFromDays (z : Nat) : Nat × Nat × Nat :=
  let z' := z + 719468
  let era := z' / 146097
  let doe := z' % 146097
  let yoe := (doe - doe / 1460 + doe / 36524 - doe / 146096) / 365
  let y := yoe + era * 400
  let doy := doe - (365 * yoe + yoe / 4 - yoe / 100)
  let mp := (5 * doy + 2) / 153
  let d := doy - (153 * mp + 2) / 5 + 1
  let m := if mp < 10 then mp + 3 else mp - 9
  (y + (if m ≤ 2 then 1 else 0), m, d)

/-- `%Y-%m-%d` rendering of a day index counted from 1970-01-01. -/
def dateStrOfDays (z : Nat) : String :=
  let c := civilFromDays z
  pad4 c.1 ++ "-" ++ pad2 c.2.1 ++ "-" ++ pad2 c.2.2

/-- Python `date.weekday()` (Monday = 0) of a day index counted from
1970-01-01 (a Thursday, index 3). -/
def weekdayOfDays (z : Nat) : Nat := (z + 3) % 7

/-- An aware Python `datetime` as produced by
`datetime.fromisoformat(item["deliveryStart"])`: the absolute instant in
minutes since the epoch together with the fixed UTC offset (minutes) of its
`tzinfo`.  Minute granularity suffices: the formatter only evaluates
`weekday()`, `%Y-%m-%d` and `%H:%M`. -/
structure Dt where
  utcMin : Nat
  offMin : Int
  deriving Repr, DecidableEq

/-- The naive local fields of an aware datetime, as minutes since the local
epoch midnight (instants before the epoch are outside the model). -/
def Dt.localMin (d : Dt) : Nat := ((d.utcMin : Int) + d.offMin).toNat

/-- Local day index (days since 1970-01-01 in the datetime's own zone). -/
def Dt.localDay (d : Dt) : Nat := d.localMin / 1440

/-- `dt.weekday()`: weekday of the datetime's own local date, Monday = 0. -/
def Dt.weekday (d : Dt) : Nat := weekdayOfDays d.localDay

/-- `dt.strftime("%Y-%m-%d")` on the datetime's own local date. -/
def Dt.dateStr (d : Dt) : String := dateStrOfDays d.localDay

/-- `dt.strftime("%H:%M")` on the datetime's own local time. -/
def Dt.hmStr (d : Dt) : String :=
  pad2 (d.localMin % 1440 / 60) ++ ":" ++ pad2 (d.localMin % 60)

/-- `dt.astimezone(tz)` for a display zone modelled as a fixed UTC offset in
minutes: same instant, new offset. -/
def Dt.astimezone (d : Dt) (off : Int) : Dt :=
  { utcMin := d.utcMin, offMin := off }

/-- Round a rational to the nearest integer, ties to even — the rounding of
Python's `%.2f` float formatting, transported to the rational model. -/
def roundHalfEven (q : ℚ) : ℤ :=
  let f := ⌊q⌋
  let r := q - f
  if r < 1 / 2 then f
  else if 1 / 2 < r then f + 1
  else if f % 2 = 0 then f else f + 1

/-- Python `f"{price:.2f}"` in the rational model: round to two decimals
(ties to even) and render with exactly two fractional digits. -/
def fmt2 (q : ℚ) : String :=
  let m := roundHalfEven (q * 100)
  let sign := if m < 0 then "-" else ""
  sign ++ toString (m.natAbs / 100) ++ "." ++ pad2 (m.natAbs % 100)

/-- The plugin configuration (section 3 `PriceConfig`); `timezone` is
`some off` for a recognized IANA name with fixed model offset `off` minutes
and `none` for a name `pytz.timezone` rejects. -/
structure Config where
  delivery_area : String
  currency : String
  timezone : Option Int
  post_to_rooms : List String
  day_names : List String
  command : String
  vat : ℚ
  deriving Repr, DecidableEq

/-- The derived fields stored on the `SpotPriceBot` instance. -/
structure BotState where
  delivery_area : String
  currency : String
  timezone : Int
  rooms : List String
  day_names : List String
  vat_multiplier : ℚ
  command_name : String
  deriving Repr, DecidableEq

/-- `SpotPriceBot.on_external_config_update`: copy the config fields, fall
back to UTC (offset 0) on an unknown timezone, and derive
`vat_multiplier = 1 + vat`. -/
def on_external_config_update (cfg : Config) : BotState :=
  { delivery_area := cfg.delivery_area
    currency := cfg.currency
    timezone := cfg.timezone.getD 0
    rooms := cfg.post_to_rooms
    day_names := cfg.day_names
    vat_multiplier := 1 + cfg.vat
    command_name := cfg.command }

/-- A JSON value sitting in an `entryPerArea` map: Python's `json` module
decodes numbers without a fraction to `int`, numbers with a fraction to
`float`; `other` stands for any non-numeric JSON value. -/
inductive JsonVal where
  | int (n : ℤ)
  | float (q : ℚ)
  | other
  deriving Repr, DecidableEq

/-- A `deliveryStart` field value: a timestamp string that
`datetime.fromisoformat` either parses to `dt` or rejects. -/
inductive IsoStr where
  | valid (dt : Dt)
  | invalid
  deriving Repr, DecidableEq

/-- One element of `multiAreaEntries`; `none` fields model absent JSON
keys. -/
structure RespEntry where
  deliveryStart : Option IsoStr
  entryPerArea : Option (List (String × JsonVal))
  deriving Repr, DecidableEq

/-- A decoded JSON response body. -/
structure RespBody where
  multiAreaEntries : Option (List RespEntry)
  deriving Repr, DecidableEq

/-- Causes wrapped by the spec's `MalformedPriceError`: a missing key, the
`isinstance(price, float)` check failing, or `fromisoformat` failing. -/
inductive ParseFail where
  | keyError (k : String)
  | valueError
  | isoError
  deriving Repr, DecidableEq

/-- The spec's fetch error taxonomy, matching the three raise sites of
`fetch_prices`: `resp.raise_for_status()` (status ≥ 400), the 204 check, and
the wrapping `except` clause. -/
inductive FetchError where
  | httpError (status : Nat)
  | noData
  | malformed (cause : ParseFail)
  deriving Repr, DecidableEq

/-- Python dict lookup `m[k]` on an `entryPerArea` map. -/
def lookupKey (m : List (String × JsonVal)) (k : String) : Option JsonVal :=
  (m.find? (fun p => p.1 = k)).map (fun p => p.2)

/-- The parse loop of `fetch_prices`: for each item take
`item["entryPerArea"]["FI"]` (the area key is hard-coded to `"FI"` at
line 172 of the source), require a float, then build
`(fromisoformat(item["deliveryStart"]), price * vat_multiplier / 10)`. -/
def parseEntries (vm : ℚ) : List RespEntry → Except ParseFail (List (Dt × ℚ))
  | [] => .ok []
  | e :: rest =>
    match e.entryPerArea with
    | none => .error (.keyError "entryPerArea")
    | some m =>
      match lookupKey m "FI" with
      | none => .error (.keyError "FI")
      | some (.float p) =>
        match e.deliveryStart with
        | none => .error (.keyError "deliveryStart")
        | some .invalid => .error .isoError
        | some (.valid dt) =>
          match parseEntries vm rest with
          | .error c => .error c
          | .ok tl => .ok ((dt, p * vm / 10) :: tl)
      | some _ => .error .valueError

/-- The query parameters `fetch_prices` builds onto the Nordpool base URL. -/
def fetch_query (st : BotState) (date : String) : List (String × String) :=
  [("date", date), ("market", "DayAhead"),
   ("deliveryArea", st.delivery_area), ("currency", st.currency)]

/-- `SpotPriceBot.fetch_prices` after the HTTP response arrives:
`raise_for_status` (status ≥ 400) → `HttpError`; status 204 → `NoDataError`;
otherwise parse the body, wrapping any parse failure in
`MalformedPriceError`. -/
def fetch_prices (st : BotState) (status : Nat) (body : RespBody) :
    Except FetchError (List (Dt × ℚ)) :=
  if 400 ≤ status then .error (.httpError status)
  else if status = 204 then .error .noData
  else
    match body.multiAreaEntries with
    | none => .error (.malformed (.keyError "multiAreaEntries"))
    | some es =>
      match parseEntries st.vat_multiplier es with
      | .error c => .error (.malformed c)
      | .ok d => .ok d

/-- `SpotPriceBot._format_prices`: header `day_names[data[12][0].weekday()]`
plus the 13th point's `%Y-%m-%d` date, then a code fence, one
`%H:%M price:.2f c/kWh` line per point in the display timezone, and a
closing fence, joined by newlines. -/
def format_prices (st : BotState) (data : List (Dt × ℚ)) : String :=
  let p12 := data.getD 12 ⟨⟨0, 0⟩, 0⟩
  String.intercalate "\n"
    ([st.day_names.getD p12.1.weekday "" ++ " " ++ p12.1.dateStr, "```"]
      ++ data.map (fun pt =>
          (pt.1.astimezone st.timezone).hmStr ++ " " ++ fmt2 pt.2 ++ " c/kWh")
      ++ ["```"])

/-- A task handed to `sched.run_later`: run `_poll(date, attempts)` after
`delaySec` seconds. -/
inductive SchedTask where
  | poll (delaySec : ℚ) (date : String) (attempts : Nat)
  deriving Repr, DecidableEq

/-- The observable effects of one `_poll` invocation: whether a fetch was
attempted, the log lines emitted, the tasks scheduled, and the
`(room, markdown)` messages sent. -/
structure PollResult where
  fetched : Bool
  logs : List String
  schedules : List SchedTask
  messages : List (String × String)
  deriving Repr, DecidableEq

/-- Log line of the terminal give-up branch of `_poll`. -/
def terminalLog : String :=
  "Failed to fetch spot prices 24 times in a row, giving up"

/-- Log line of the retry branch of `_poll`. -/
def retryLog : String := "Failed to fetch spot prices, retrying in 5 minutes"

/-- `SpotPriceBot._poll(date, attempts)`, with the outcome of
`fetch_prices date` for this attempt passed in (ignored on the give-up
branch, where no fetch happens). -/
def poll (st : BotState) (date : String) (attempts : Nat)
    (fetchResult : Except FetchError (List (Dt × ℚ))) : PollResult :=
  if 24 ≤ attempts then
    { fetched := false, logs := [terminalLog], schedules := [], messages := [] }
  else
    match fetchResult with
    | .error _ =>
      { fetched := true, logs := [retryLog]
        schedules := [.poll 300 date (attempts + 1)], messages := [] }
    | .ok data =>
      { fetched := true, logs := [], schedules := []
        messages := st.rooms.map (fun r => (r, format_prices st data)) }

/-- Microseconds of a CET instant since the epoch. -/
def CetNow.totalMicro (t : CetNow) : Nat := t.day * dayMicro + t.micro

/-- `SpotPriceBot._schedule_poll`: arm a one-shot timer at the next announce
instant running `_poll` on the date one day past it, attempt count 0. -/
def schedule_poll (now : CetNow) : SchedTask :=
  let announce := next_announce_time now
  let delay : ℚ := ((announce.totalMicro : ℚ) - (now.totalMicro : ℚ)) / 1000000
  .poll delay (dateStrOfDays (announce.day + 1)) 0

/-- The observable effects of one `poll_manually` command invocation. -/
structure ManualResult where
  fetchedDate : String
  reply : String
  schedules : List SchedTask
  deriving Repr, DecidableEq

/-- The fixed failure reply of `poll_manually`. -/
def failReply : String := "Failed to fetch prices"

/-- `SpotPriceBot.poll_manually`: default a falsy date argument to
`next_announce_time.strftime("%Y-%m-%d")`, fetch once, and reply with either
the fixed failure message or the formatted prices; nothing is scheduled. -/
def poll_manually (st : BotState) (now : CetNow) (dateArg : Option String)
    (fetchAt : String → Except FetchError (List (Dt × ℚ))) : ManualResult :=
  let date := match dateArg with
    | none => dateStrOfDays (next_announce_time now).day
    | some s => if s.isEmpty then dateStrOfDays (next_announce_time now).day else s
  match fetchAt date with
  | .error _ => { fetchedDate := date, reply := failReply, schedules := [] }
  | .ok prices =>
    { fetchedDate := date, reply := format_prices st prices, schedules := [] }

/-- Boolean test: the value found for a key is a JSON float. -/
def isFloat : Option JsonVal → Bool
  | some (.float _) => true
  | _ => false

/-- Boolean test: a `deliveryStart` field is present and parseable. -/
def isValidDs : Option IsoStr → Bool
  | some (.valid _) => true
  | _ => false

/-- Characterizes the entries the parse loop of `fetch_prices` accepts:
`entryPerArea` present with a float under the `"FI"` key, and a present,
parseable `deliveryStart`. -/
def entryOk (e : RespEntry) : Bool :=
  (match e.entryPerArea with
   | none => false
   | some m => isFloat (lookupKey m "FI")) && isValidDs e.deliveryStart

/-- Test bot state: Finland delivery area, EUR, display zone UTC+2,
two destination rooms, English day names, 24 % VAT. -/
def stW : BotState :=
  { delivery_area := "FI", currency := "EUR", timezone := 120
    rooms := ["!r1:example.com", "!r2:example.com"]
    day_names := ["Monday", "Tuesday", "Wednesday", "Thursday", "Friday",
                  "Saturday", "Sunday"]
    vat_multiplier := 1 + 24 / 100, command_name := "spot" }

/-- Test configuration producing `stW` via `on_external_config_update`. -/
def cfgW : Config :=
  { delivery_area := "FI", currency := "EUR", timezone := some 120
    post_to_rooms := ["!r1:example.com", "!r2:example.com"]
    day_names := ["Monday", "Tuesday", "Wednesday", "Thursday", "Friday",
                  "Saturday", "Sunday"]
    command := "spot", vat := 24 / 100 }

/-- Test bot state configured for the Swedish SE3 delivery area. -/
def stSE : BotState := { stW with delivery_area := "SE3" }

/-- Hour `h` of 2024-01-15 Helsinki time as a UTC-offset datetime:
2024-01-14T23:00Z plus `h` hours (2024-01-14 is day 19736). -/
def dtW (h : Nat) : Dt := ⟨19736 * 1440 + 23 * 60 + 60 * h, 0⟩

/-- A 24-point price series for Monday 2024-01-15. -/
def seriesW : List (Dt × ℚ) :=
  (List.range 24).map (fun h => (dtW h, (h : ℚ) + 1 / 2))

/-- Response entry with the `"FI"` price set to `v`. -/
def entryW (v : JsonVal) : RespEntry := ⟨some (.valid (dtW 0)), some [("FI", v)]⟩

/-- Response body whose single entry has an integer price. -/
def bodyInt : RespBody := ⟨some [entryW (.int 85)]⟩

/-- Response body whose single entry prices the SE3 area only. -/
def bodySE : RespBody := ⟨some [⟨some (.valid (dtW 0)), some [("SE3", .float 10)]⟩]⟩

/-- Well-formed response body: one entry with the float price 10 for FI. -/
def bodyW : RespBody := ⟨some [entryW (.float 10)]⟩

/-- The series `fetch_prices` extracts from `bodyW` under `cfgW`:
10 €/MWh × 1.24 / 10 = 1.24 c/kWh. -/
def dataW : List (Dt × ℚ) := [(dtW 0, 10 * (1 + 24 / 100) / 10)]

theorem intercalate_go_append (s : String) (as : List String) :
    ∀ acc₁ acc₂ : String,
      String.intercalate.go (acc₁ ++ acc₂) s as
        = acc₁ ++ String.intercalate.go acc₂ s as := by
  induction as with
  | nil => intro a₁ a₂; rfl
  | cons a as ih =>
    intro a₁ a₂
    show String.intercalate.go (a₁ ++ a₂ ++ s ++ a) s as
      = a₁ ++ String.intercalate.go (a₂ ++ s ++ a) s as
    rw [String.append_assoc a₁ a₂ s, String.append_assoc a₁ (a₂ ++ s) a]
    exact ih a₁ (a₂ ++ s ++ a)

theorem intercalate_cons (s x : String) (xs : List String) (h : xs ≠ []) :
    String.intercalate s (x :: xs) = x ++ s ++ String.intercalate s xs := by
  cases xs with
  | nil => cases h rfl
  | cons y ys =>
    show String.intercalate.go (x ++ s ++ y) s ys
      = x ++ s ++ String.intercalate.go y s ys
    exact intercalate_go_append s ys (x ++ s) y

theorem intercalate_append_singleton (s y : String) (l : List String)
    (h : l ≠ []) :
    String.intercalate s (l ++ [y]) = String.intercalate s l ++ s ++ y := by
  induction l with
  | nil => cases h rfl
  | cons x xs ih =>
    cases xs with
    | nil => rfl
    | cons z zs =>
      rw [List.cons_append, intercalate_cons s x ((z :: zs) ++ [y]) (by simp),
        intercalate_cons s x (z :: zs) (by simp), ih (by simp)]
      simp only [String.append_assoc]

theorem parseEntries_ok_iff (vm : ℚ) (es : List RespEntry) :
    (∃ d, parseEntries vm es = .ok d) ↔ ∀ e ∈ es, entryOk e = true := by
  induction es with
  | nil => simp [parseEntries]
  | cons e es ih =>
    obtain ⟨ds, epa⟩ := e
    simp only [List.mem_cons, forall_eq_or_imp, ← ih]
    cases epa with
    | none => simp [parseEntries, entryOk]
    | some m =>
      cases hq : lookupKey m "FI" with
      | none => simp [parseEntries, entryOk, hq, isFloat]
      | some v =>
        cases v with
        | int n => simp [parseEntries, entryOk, hq, isFloat]
        | other => simp [parseEntries, entryOk, hq, isFloat]
        | float p =>
          cases ds with
          | none => simp [parseEntries, entryOk, hq, isFloat, isValidDs]
          | some iso =>
            cases iso with
            | invalid => simp [parseEntries, entryOk, hq, isFloat, isValidDs]
            | valid dt =>
              simp only [parseEntries, entryOk, hq, isFloat, isValidDs,
                Bool.and_self, true_iff, Bool.and_true]
              cases hr : parseEntries vm es with
              | error c => simp [hr]
              | ok tl => simp [hr]

theorem parseEntries_ok_prices (vm : ℚ) (es : List RespEntry) :
    ∀ d : List (Dt × ℚ), parseEntries vm es = .ok d →
      d.length = es.length ∧
      ∀ i (hd : i < d.length) (he : i < es.length),
        ∃ raw : ℚ, ∃ m, (es.get ⟨i, he⟩).entryPerArea = some m ∧
          lookupKey m "FI" = some (.float raw) ∧
          (d.get ⟨i, hd⟩).2 = raw * vm / 10 := by
  induction es with
  | nil =>
    intro d h
    simp only [parseEntries] at h
    cases h
    exact ⟨rfl, fun i hd => absurd hd (by simp)⟩
  | cons e es ih =>
    intro d h
    obtain ⟨ds, epa⟩ := e
    cases epa with
    | none => simp [parseEntries] at h
    | some m =>
      cases hq : lookupKey m "FI" with
      | none => simp [parseEntries, hq] at h
      | some v =>
        cases v with
        | int n => simp [parseEntries, hq] at h
        | other => simp [parseEntries, hq] at h
        | float p =>
          cases ds with
          | none => simp [parseEntries, hq] at h
          | some iso =>
            cases iso with
            | invalid => simp [parseEntries, hq] at h
            | valid dt =>
              simp only [parseEntries, hq] at h
              cases hr : parseEntries vm es with
              | error c => rw [hr] at h; cases h
              | ok tl =>
                rw [hr] at h
                cases h
                obtain ⟨hlen, hidx⟩ := ih tl hr
                refine ⟨by simp [hlen], ?_⟩
                intro i hd he
                cases i with
                | zero => exact ⟨p, m, rfl, hq, rfl⟩
                | succ j =>
                  exact hidx j (by simpa using hd) (by simpa using he)

theorem fetch_prices_eq (st : BotState) (status : Nat) (body : RespBody) :
    fetch_prices st status body =
      if 400 ≤ status then .error (.httpError status)
      else if status = 204 then .error .noData
      else fetch_prices st 200 body := by
  by_cases h4 : 400 ≤ status
  · unfold fetch_prices
    rw [if_pos h4, if_pos h4]
  · by_cases h2 : status = 204
    · unfold fetch_prices
      rw [if_neg h4, if_neg h4, if_pos h2, if_pos h2]
    · rw [if_neg h4, if_neg h2]
      unfold fetch_prices
      rw [if_neg h4, if_neg h2, if_neg (by omega), if_neg (by omega)]

theorem fetch_prices_200_cases (st : BotState) (body : RespBody) :
    (∃ c, fetch_prices st 200 body = .error (.malformed c)) ∨
      (∃ d, fetch_prices st 200 body = .ok d) := by
  unfold fetch_prices
  rw [if_neg (by omega), if_neg (by omega)]
  obtain ⟨mae⟩ := body
  cases mae with
  | none => exact .inl ⟨.keyError "multiAreaEntries", rfl⟩
  | some es =>
    dsimp only
    cases hp : parseEntries st.vat_multiplier es with
    | error c => exact .inl ⟨c, rfl⟩
    | ok d => exact .inr ⟨d, rfl⟩

theorem fetch_prices_ok (st : BotState) (status : Nat) (body : RespBody)
    (d : List (Dt × ℚ)) (h : fetch_prices st status body = .ok d) :
    ∃ es, body.multiAreaEntries = some es ∧
      parseEntries st.vat_multiplier es = .ok d := by
  unfold fetch_prices at h
  by_cases h4 : 400 ≤ status
  · rw [if_pos h4] at h; cases h
  · rw [if_neg h4] at h
    by_cases h2 : status = 204
    · rw [if_pos h2] at h; cases h
    · rw [if_neg h2] at h
      obtain ⟨mae⟩ := body
      cases mae with
      | none => cases h
      | some es =>
        dsimp only at h
        cases hp : parseEntries st.vat_multiplier es with
        | error c => rw [hp] at h; cases h
        | ok d' =>
          rw [hp] at h
          injection h with h
          subst h
          exact ⟨es, rfl, hp⟩

/-- C1: a successful `_poll` cycle sends the formatted prices to every
configured destination room, but — contrary to the claim — schedules
nothing afterwards: neither the success branch nor the exhausted branch
re-arms the next day's 12:45 CET timer (`_schedule_poll` is only ever
invoked from `start`). -/
theorem poll_success_no_rearm :
    (poll stW "2024-01-16" 0 (.ok seriesW)).messages
        = stW.rooms.map (fun r => (r, format_prices stW seriesW)) ∧
    (poll stW "2024-01-16" 0 (.ok seriesW)).schedules = [] ∧
    (poll stW "2024-01-16" 24 (.error .noData)).schedules = [] :=
  ⟨rfl, rfl, rfl⟩

/-- C2: the configured delivery area is used in the request query, yet the
parse loop looks up the hard-coded key `"FI"`: with `delivery_area = "SE3"`
and a response pricing exactly the SE3 area, `fetch_prices` fails with
`MalformedPriceError` wrapping a `KeyError` on `"FI"` instead of extracting
the configured area's price. -/
theorem fetch_ignores_configured_area :
    stSE.delivery_area = "SE3" ∧
    fetch_query stSE "2024-01-16" =
      [("date", "2024-01-16"), ("market", "DayAhead"),
       ("deliveryArea", "SE3"), ("currency", "EUR")] ∧
    lookupKey [("SE3", JsonVal.float 10)] stSE.delivery_area
      = some (.float 10) ∧
    fetch_prices stSE 200 bodySE = .error (.malformed (.keyError "FI")) :=
  ⟨rfl, rfl, by decide, rfl⟩

/-- C3 counterexample: evaluated exactly at 12:45:00.000000 CET
(day 19737 = 2024-01-15), `next_announce_time` returns *today* at 12:45,
not tomorrow as the claim states for instants at or after 12:45. -/
theorem next_announce_boundary_cex :
    next_announce_time ⟨19737, announceMicro⟩ = ⟨19737, announceMicro⟩ ∧
    next_announce_time ⟨19737, announceMicro⟩ ≠ ⟨19738, announceMicro⟩ := by
  refine ⟨?_, ?_⟩ <;> decide

/-- C3 (amended): `next_announce_time` returns today at 12:45:00 CET for
every instant at or before 12:45:00.000000, and tomorrow at 12:45:00 CET for
every instant strictly after it. -/
theorem next_announce_time_correct (now : CetNow) :
    (now.micro ≤ announceMicro →
      next_announce_time now = ⟨now.day, announceMicro⟩) ∧
    (announceMicro < now.micro →
      next_announce_time now = ⟨now.day + 1, announceMicro⟩) := by
  unfold next_announce_time
  dsimp only
  constructor <;> intro h
  · rw [if_neg (by omega)]
  · rw [if_pos (by omega)]

/-- C3 witness: one instant before the cutoff maps to the same day, one
instant one microsecond past the cutoff maps to the next day. -/
theorem next_announce_time_correct_witness :
    next_announce_time ⟨19737, 0⟩ = ⟨19737, announceMicro⟩ ∧
    next_announce_time ⟨19737, announceMicro + 1⟩ = ⟨19738, announceMicro⟩ :=
  ⟨(next_announce_time_correct ⟨19737, 0⟩).1 (by decide),
   (next_announce_time_correct ⟨19737, announceMicro + 1⟩).2 (by decide)⟩

/-- C4: along a chain of consecutive failures for one date, `_poll` fetches
exactly at attempt counters 0 through 23 (a 25th fetch never occurs: at
counter 24 no fetch is attempted), each failing attempt re-arms the chain
with the counter incremented by one, and the capped call logs the terminal
error and schedules nothing further. -/
theorem poll_retry_cap (st : BotState) (date : String)
    (errs : Nat → FetchError) :
    (∀ j, ((poll st date j (.error (errs j))).fetched = true ↔ j < 24)) ∧
    (∀ j, j < 24 → (poll st date j (.error (errs j))).schedules
        = [.poll 300 date (j + 1)]) ∧
    poll st date 24 (.error (errs 24)) =
      { fetched := false, logs := [terminalLog], schedules := [],
        messages := [] } := by
  refine ⟨fun j => ?_, fun j hj => ?_, rfl⟩
  · unfold poll
    by_cases hj : 24 ≤ j
    · rw [if_pos hj]
      simpa using by omega
    · rw [if_neg hj]
      simpa using by omega
  · unfold poll
    rw [if_neg (by omega)]

/-- C4 witness: with every attempt failing on a 204, attempt 23 still
re-arms (to counter 24) and attempt 24 performs no fetch. -/
theorem poll_retry_cap_witness :
    (poll stW "2024-01-16" 23 (.error .noData)).schedules
        = [.poll 300 "2024-01-16" 24] ∧
    (poll stW "2024-01-16" 24 (.error .noData)).fetched = false :=
  ⟨(poll_retry_cap stW "2024-01-16" (fun _ => .noData)).2.1 23 (by omega),
   by rw [(poll_retry_cap stW "2024-01-16" (fun _ => .noData)).2.2]⟩

/-- C5: every fetch failure with attempt counter below 24 logs the retry
message and re-arms a one-shot timer exactly 300 seconds later for the same
date with the counter incremented by exactly one, uniformly in the error
kind (`NoDataError` from a 204 included). -/
theorem poll_failure_rearm (st : BotState) (date : String) (a : Nat)
    (ha : a < 24) (e : FetchError) :
    poll st date a (.error e) =
      { fetched := true, logs := [retryLog],
        schedules := [.poll 300 date (a + 1)], messages := [] } := by
  unfold poll
  rw [if_neg (by omega)]

/-- C5 witness: the first failed attempt on a 204 response re-arms in
exactly 300 seconds with counter 1. -/
theorem poll_failure_rearm_witness :
    poll stW "2024-01-16" 0 (.error .noData) =
      { fetched := true, logs := [retryLog],
        schedules := [.poll 300 "2024-01-16" 1], messages := [] } :=
  poll_failure_rearm stW "2024-01-16" 0 (by omega) .noData

/-- C6: for a configuration with `vat ≥ 0`, every price stored in a
successfully fetched series equals the raw per-area price times
`(1 + vat) / 10`, the multiplier being derived from the `vat` config value
by `on_external_config_update`. -/
theorem price_conversion_vat (cfg : Config) (status : Nat) (body : RespBody)
    (d : List (Dt × ℚ)) (hv : 0 ≤ cfg.vat)
    (h : fetch_prices (on_external_config_update cfg) status body = .ok d) :
    ∀ i (hd : i < d.length), ∃ raw : ℚ, ∃ es,
      body.multiAreaEntries = some es ∧ ∃ he : i < es.length, ∃ m,
        (es.get ⟨i, he⟩).entryPerArea = some m ∧
        lookupKey m "FI" = some (.float raw) ∧
        (d.get ⟨i, hd⟩).2 = raw * (1 + cfg.vat) / 10 := by
  intro i hd
  obtain ⟨es, hes, hp⟩ := fetch_prices_ok _ _ _ _ h
  obtain ⟨hlen, hidx⟩ := parseEntries_ok_prices _ es d hp
  have he : i < es.length := hlen ▸ hd
  obtain ⟨raw, m, hm, hq, hval⟩ := hidx i hd he
  exact ⟨raw, es, hes, he, m, hm, hq,
    by simpa [on_external_config_update] using hval⟩

/-- C6 witness: 24 % VAT and a raw price of 10 €/MWh produce the stored
price 10 × 1.24 / 10 = 1.24 c/kWh. -/
theorem price_conversion_vat_witness :
    fetch_prices (on_external_config_update cfgW) 200 bodyW = .ok dataW ∧
    (0 : ℚ) ≤ cfgW.vat ∧
    ∃ raw : ℚ, ∃ es, bodyW.multiAreaEntries = some es ∧
      ∃ he : 0 < es.length, ∃ m,
        (es.get ⟨0, he⟩).entryPerArea = some m ∧
        lookupKey m "FI" = some (.float raw) ∧
        (dataW.get ⟨0, by decide⟩).2 = raw * (1 + cfgW.vat) / 10 :=
  ⟨rfl, by norm_num [cfgW],
   price_conversion_vat cfgW 200 bodyW dataW (by norm_num [cfgW]) rfl 0
     (by decide)⟩

/-- C7: after the HTTP response arrives, `fetch_prices` fails with
`NoDataError` exactly when the status is 204, fails with `HttpError` exactly
when the status is a non-success code (≥ 400, the `raise_for_status`
threshold), and on every other status proceeds to parse the body (the result
coincides with the one for a plain 200). -/
theorem fetch_status_classification (st : BotState) (status : Nat)
    (body : RespBody) :
    ((fetch_prices st status body = .error .noData) ↔ status = 204) ∧
    ((∃ s, fetch_prices st status body = .error (.httpError s)) ↔
      400 ≤ status) ∧
    (status < 400 → status ≠ 204 →
      fetch_prices st status body = fetch_prices st 200 body) := by
  refine ⟨?_, ?_, fun hlt hne => ?_⟩
  · rw [fetch_prices_eq st status body]
    by_cases h4 : 400 ≤ status
    · rw [if_pos h4]
      constructor
      · intro h; exact absurd h (by simp)
      · intro h; omega
    · by_cases h2 : status = 204
      · rw [if_neg h4, if_pos h2]
        simp [h2]
      · rw [if_neg h4, if_neg h2]
        rcases fetch_prices_200_cases st body with ⟨c, hc⟩ | ⟨d, hd⟩
        · rw [hc]; simp [h2]
        · rw [hd]; simp [h2]
  · rw [fetch_prices_eq st status body]
    by_cases h4 : 400 ≤ status
    · rw [if_pos h4]
      exact ⟨fun _ => h4, fun _ => ⟨status, rfl⟩⟩
    · by_cases h2 : status = 204
      · rw [if_neg h4, if_pos h2]
        constructor
        · rintro ⟨s, hs⟩; exact absurd hs (by simp)
        · intro h; exact absurd h h4
      · rw [if_neg h4, if_neg h2]
        constructor
        · rintro ⟨s, hs⟩
          rcases fetch_prices_200_cases st body with ⟨c, hc⟩ | ⟨d, hd⟩
          · rw [hc] at hs; exact absurd hs (by simp)
          · rw [hd] at hs; exact absurd hs (by simp)
        · intro h; exact absurd h h4
  · rw [fetch_prices_eq st status body, if_neg (by omega), if_neg hne]

/-- C7 witness: 204 yields `NoDataError`, 301 parses like a 200, and 503
yields `HttpError 503`. -/
theorem fetch_status_classification_witness :
    fetch_prices stW 204 bodyW = .error .noData ∧
    fetch_prices stW 301 bodyW = fetch_prices stW 200 bodyW ∧
    fetch_prices stW 503 bodyW = .error (.httpError 503) :=
  ⟨(fetch_status_classification stW 204 bodyW).1.mpr rfl,
   (fetch_status_classification stW 301 bodyW).2.2 (by omega) (by decide),
   rfl⟩

/-- C8: on a series of at least 13 points the formatted output is the
configured day name of the 13th point's weekday (Monday-indexed) followed by
that point's ISO date, then a code-fence line, one line per point with the
display-timezone `HH:MM` time, the price to two decimals and the `c/kWh`
suffix, and a closing code-fence line. -/
theorem format_prices_spec (st : BotState) (data : List (Dt × ℚ))
    (h : 13 ≤ data.length) :
    format_prices st data =
      st.day_names.getD (data.get ⟨12, by omega⟩).1.weekday "" ++ " "
        ++ (data.get ⟨12, by omega⟩).1.dateStr
        ++ "\n" ++ "```" ++ "\n"
        ++ String.intercalate "\n" (data.map fun pt =>
            (pt.1.astimezone st.timezone).hmStr ++ " " ++ fmt2 pt.2
              ++ " c/kWh")
        ++ "\n" ++ "```" := by
  have h12 : 12 < data.length := by omega
  have hnil : data ≠ [] := by
    intro h0; rw [h0] at h; simp at h
  have hne : data.map (fun pt =>
      (pt.1.astimezone st.timezone).hmStr ++ " " ++ fmt2 pt.2 ++ " c/kWh")
      ≠ [] := by
    intro hm; exact hnil (List.map_eq_nil.mp hm)
  unfold format_prices
  dsimp only
  rw [show data.getD 12 ⟨⟨0, 0⟩, 0⟩ = data.get ⟨12, h12⟩ from
    List.getD_eq_get data ⟨⟨0, 0⟩, 0⟩ h12]
  simp only [List.cons_append, List.nil_append]
  rw [intercalate_cons "\n" _ _ (by simp),
    intercalate_cons "\n" _ _ (by simp),
    intercalate_append_singleton "\n" "```" _ hne]
  simp only [String.append_assoc]

/-- C8 witness: the 24-point series for Monday 2024-01-15 with
`day_names[0] = "Monday"` formats with first line `"Monday 2024-01-15"`. -/
theorem format_prices_spec_witness :
    13 ≤ seriesW.length ∧
    format_prices stW seriesW =
      stW.day_names.getD (seriesW.get ⟨12, by decide⟩).1.weekday "" ++ " "
        ++ (seriesW.get ⟨12, by decide⟩).1.dateStr
        ++ "\n" ++ "```" ++ "\n"
        ++ String.intercalate "\n" (seriesW.map fun pt =>
            (pt.1.astimezone stW.timezone).hmStr ++ " " ++ fmt2 pt.2
              ++ " c/kWh")
        ++ "\n" ++ "```" ∧
    stW.day_names.getD (seriesW.get ⟨12, by decide⟩).1.weekday "" ++ " "
        ++ (seriesW.get ⟨12, by decide⟩).1.dateStr = "Monday 2024-01-15" :=
  ⟨by decide, format_prices_spec stW seriesW (by decide), by decide⟩

/-- C9 counterexample: an entry whose `"FI"` price is the numeric (integer)
JSON value 85, with every required field present, is rejected:
`fetch_prices` fails with `MalformedPriceError` wrapping the
`isinstance(price, float)` failure, refuting "every entry whose price is
numeric is accepted". -/
theorem parse_int_price_cex :
    lookupKey [("FI", JsonVal.int 85)] "FI" = some (.int 85) ∧
    fetch_prices stW 200 bodyInt = .error (.malformed .valueError) :=
  ⟨by decide, rfl⟩

/-- C9 (amended): on a non-error, non-204 status, `fetch_prices` fails with
`MalformedPriceError` if and only if the body is not well formed: the entry
list is absent, or some entry lacks `entryPerArea`, lacks a *float* under
the `"FI"` area key (integer numerics are rejected by the
`isinstance(price, float)` check), or lacks a parseable `deliveryStart`. -/
theorem fetch_malformed_iff (st : BotState) (status : Nat) (body : RespBody)
    (h1 : status < 400) (h2 : status ≠ 204) :
    (∃ c, fetch_prices st status body = .error (.malformed c)) ↔
      ¬ (∃ es, body.multiAreaEntries = some es ∧
          ∀ e ∈ es, entryOk e = true) := by
  rw [fetch_prices_eq st status body, if_neg (by omega), if_neg h2]
  unfold fetch_prices
  rw [if_neg (by omega), if_neg (by omega)]
  obtain ⟨mae⟩ := body
  cases mae with
  | none =>
    constructor
    · rintro - ⟨es, hes, -⟩; cases hes
    · intro _; exact ⟨.keyError "multiAreaEntries", rfl⟩
  | some es =>
    dsimp only
    cases hp : parseEntries st.vat_multiplier es with
    | error c =>
      constructor
      · rintro - ⟨es', hes', hall⟩
        injection hes' with hes'
        subst hes'
        obtain ⟨d, hd⟩ := (parseEntries_ok_iff st.vat_multiplier es).mpr hall
        rw [hp] at hd; cases hd
      · intro _; exact ⟨c, rfl⟩
    | ok d =>
      constructor
      · rintro ⟨c, hc⟩; exact absurd hc (by simp)
      · intro hn
        exact absurd
          ⟨es, rfl, (parseEntries_ok_iff st.vat_multiplier es).mp ⟨d, hp⟩⟩ hn

/-- C9 witness: a body with no `multiAreaEntries` key yields a
`MalformedPriceError`. -/
theorem fetch_malformed_iff_witness :
    ∃ c, fetch_prices stW 200 (RespBody.mk none)
      = .error (.malformed c) :=
  (fetch_malformed_iff stW 200 ⟨none⟩ (by omega) (by decide)).mpr
    (by rintro ⟨es, hes, -⟩; cases hes)

/-- C10: invoked without a date argument, `poll_manually` fetches
`next_announce_time`'s calendar date rendered `YYYY-MM-DD`; on any fetch
failure it replies with the fixed failure message, on success with the
formatted prices, and in either case it schedules nothing (no retry). -/
theorem poll_manually_spec (st : BotState) (now : CetNow)
    (fetchAt : String → Except FetchError (List (Dt × ℚ))) :
    (poll_manually st now none fetchAt).fetchedDate
        = dateStrOfDays (next_announce_time now).day ∧
    (∀ e, fetchAt (dateStrOfDays (next_announce_time now).day) = .error e →
      poll_manually st now none fetchAt =
        { fetchedDate := dateStrOfDays (next_announce_time now).day,
          reply := failReply, schedules := [] }) ∧
    (∀ prices,
      fetchAt (dateStrOfDays (next_announce_time now).day) = .ok prices →
      poll_manually st now none fetchAt =
        { fetchedDate := dateStrOfDays (next_announce_time now).day,
          reply := format_prices st prices, schedules := [] }) := by
  refine ⟨?_, fun e he => ?_, fun prices hp => ?_⟩ <;>
    unfold poll_manually <;> dsimp only
  · cases hf : fetchAt (dateStrOfDays (next_announce_time now).day) <;> rfl
  · rw [he]
  · rw [hp]

/-- C10 witness: with no date argument at midnight CET on 2024-01-15
(day 19737) and an always-failing fetch, the handler fetches "2024-01-15"
and replies with the fixed failure message. -/
theorem poll_manually_spec_witness :
    poll_manually stW ⟨19737, 0⟩ none (fun _ => .error .noData) =
      { fetchedDate := "2024-01-15", reply := failReply, schedules := [] } := by
  rw [(poll_manually_spec stW ⟨19737, 0⟩ (fun _ => .error .noData)).2.1
    .noData rfl]
  decide

end Spotprice

